import Mathlib

/-!
Verification of the `tbc` Turborepo → Bazel remote-cache proxy.

This file shallowly embeds the parts of the Go program that the verified
properties are about:

* the key canonicalizer `getKey` (server package);
* the metadata allowlist codec `collectMetadata` (server package);
* the synthetic `Command`/`Action` protobuf construction and digesting
  (`prepareACProtos`, `prepareProto` in the client package), including a
  byte-level model of the protobuf wire encoding and of SHA-256;
* the gRPC-backed remote-cache client (`UploadFile`, `FindFile`,
  `DownloadFile`, `locateArtifact`), modelled over an abstract remote
  (`RpcWorld`) that supplies the results of the individual RPCs;
* the in-memory test client (`InMemoryClient`);
* the HTTP artifact server: routing, the bearer-token gate, the five
  handlers, and the `Stats` counters, as one request-step function
  `handle` plus a trace runner `runTrace`;
* the statistics summary formatter `Stats.slogArgs`.

Go machine integers that hold counters are modelled as `Int` (Go `int` /
`int64` are signed); byte values are `Nat` below 256; fallible Go calls
return `Except GoErr` values.  The file-system (temp files) is collapsed:
a handler that streams a request body into a temp file and hands the file
to the client is modelled as handing the body bytes to the client
directly, and no file-system failures are modelled.
-/

namespace Tbc

/-! ## SHA-256 (model of Go `crypto/sha256`)

Bytes are `Nat` values below 256, 32-bit words are `Nat` values reduced
modulo `2 ^ 32` wherever overflow matters. -/

def add32 (a b : Nat) : Nat := (a + b) % 4294967296

/-- Rotate a 32-bit word right by `k` bits. -/
def rotr32 (k x : Nat) : Nat := (x >>> k) ||| ((x <<< (32 - k)) % 4294967296)

def sha256ch (x y z : Nat) : Nat := Nat.xor (Nat.land x y) (Nat.land (Nat.xor x 4294967295) z)

def sha256maj (x y z : Nat) : Nat :=
  Nat.xor (Nat.xor (Nat.land x y) (Nat.land x z)) (Nat.land y z)

def bigSigma0 (x : Nat) : Nat := Nat.xor (Nat.xor (rotr32 2 x) (rotr32 13 x)) (rotr32 22 x)

def bigSigma1 (x : Nat) : Nat := Nat.xor (Nat.xor (rotr32 6 x) (rotr32 11 x)) (rotr32 25 x)

def smallSigma0 (x : Nat) : Nat := Nat.xor (Nat.xor (rotr32 7 x) (rotr32 18 x)) (x >>> 3)

def smallSigma1 (x : Nat) : Nat := Nat.xor (Nat.xor (rotr32 17 x) (rotr32 19 x)) (x >>> 10)

/-- The 64 SHA-256 round constants. -/
def sha256K : List Nat :=
  [
   1116352408, 1899447441, 3049323471, 3921009573, 961987163, 1508970993, 2453635748, 2870763221,
   3624381080, 310598401, 607225278, 1426881987, 1925078388, 2162078206, 2614888103, 3248222580,
   3835390401, 4022224774, 264347078, 604807628, 770255983, 1249150122, 1555081692, 1996064986,
   2554220882, 2821834349, 2952996808, 3210313671, 3336571891, 3584528711, 113926993, 338241895,
   666307205, 773529912, 1294757372, 1396182291, 1695183700, 1986661051, 2177026350, 2456956037,
   2730485921, 2820302411, 3259730800, 3345764771, 3516065817, 3600352804, 4094571909, 275423344,
   430227734, 506948616, 659060556, 883997877, 958139571, 1322822218, 1537002063, 1747873779,
   1955562222, 2024104815, 2227730452, 2361852424, 2428436474, 2756734187, 3204031479, 3329325298]

/-- The SHA-256 working state: eight 32-bit words. -/
structure Sha256State where
  a : Nat
  b : Nat
  c : Nat
  d : Nat
  e : Nat
  f : Nat
  g : Nat
  h : Nat
deriving DecidableEq

/-- The SHA-256 initial hash value. -/
def sha256Init : Sha256State :=
  ⟨1779033703, 3144134277, 1013904242, 2773480762, 1359893119, 2600822924, 528734635, 1541459225⟩

/-- One SHA-256 round; `kw` is the round constant already added to the
message-schedule word (both taken modulo `2 ^ 32`). -/
def sha256Round (st : Sha256State) (kw : Nat) : Sha256State :=
  let t1 := add32 st.h (add32 (bigSigma1 st.e) (add32 (sha256ch st.e st.f st.g) kw))
  let t2 := add32 (bigSigma0 st.a) (sha256maj st.a st.b st.c)
  ⟨add32 t1 t2, st.a, st.b, st.c, add32 st.d t1, st.e, st.f, st.g⟩

/-- Extend the 16 block words to the 64-word message schedule.  The
accumulator holds the schedule so far, newest word first. -/
def sha256Extend (acc : List Nat) : Nat → List Nat
  | 0 => acc
  | n + 1 =>
    let g := fun k => acc.getD k 0
    let w := add32 (add32 (smallSigma1 (g 1)) (g 6)) (add32 (smallSigma0 (g 14)) (g 15))
    sha256Extend (w :: acc) n

def sha256Schedule (block : List Nat) : List Nat :=
  (sha256Extend block.reverse 48).reverse

def sha256AddStates (x y : Sha256State) : Sha256State :=
  ⟨add32 x.a y.a, add32 x.b y.b, add32 x.c y.c, add32 x.d y.d,
   add32 x.e y.e, add32 x.f y.f, add32 x.g y.g, add32 x.h y.h⟩

/-- Compress one 16-word block into the running state. -/
def sha256Block (st : Sha256State) (block : List Nat) : Sha256State :=
  let kws := List.zipWith add32 sha256K (sha256Schedule block)
  sha256AddStates st (kws.foldl sha256Round st)

/-- Process a padded message, given as a list of 32-bit words whose length
is a multiple of 16, 16 words (one block) at a time. -/
def sha256Words (st : Sha256State) : List Nat → Sha256State
  | [] => st
  | w :: ws => sha256Words (sha256Block st (w :: ws.take 15)) (ws.drop 15)
termination_by ws => ws.length
decreasing_by simp; omega

/-- Big-endian combination of bytes into 32-bit words. -/
def bytesToWords : List Nat → List Nat
  | a :: b :: c :: d :: rest => (((a * 256 + b) * 256 + c) * 256 + d) :: bytesToWords rest
  | _ => []

/-- SHA-256 padding: append `0x80`, zeros up to 56 mod 64, and the 64-bit
big-endian bit length. -/
def sha256Pad (msg : List Nat) : List Nat :=
  let l := msg.length
  let bl := 8 * l
  msg ++ 128 :: List.replicate ((119 - l % 64) % 64) 0 ++
    [(bl >>> 56) % 256, (bl >>> 48) % 256, (bl >>> 40) % 256, (bl >>> 32) % 256,
     (bl >>> 24) % 256, (bl >>> 16) % 256, (bl >>> 8) % 256, bl % 256]

/-- Big-endian bytes of one 32-bit word. -/
def wordBytes (w : Nat) : List Nat :=
  [(w >>> 24) % 256, (w >>> 16) % 256, (w >>> 8) % 256, w % 256]

def sha256StateBytes (s : Sha256State) : List Nat :=
  wordBytes s.a ++ wordBytes s.b ++ wordBytes s.c ++ wordBytes s.d ++
    wordBytes s.e ++ wordBytes s.f ++ wordBytes s.g ++ wordBytes s.h

/-- SHA-256 of a byte sequence, as 32 bytes. -/
def sha256 (msg : List Nat) : List Nat :=
  sha256StateBytes (sha256Words sha256Init (bytesToWords (sha256Pad msg)))

/-! ## Lowercase hex encoding (model of Go `fmt.Sprintf("%x", ...)`) -/

def hexDigits : List Char := "0123456789abcdef".data

def hexChar (n : Nat) : Char := hexDigits.getD n '0'

def byteHex (b : Nat) : List Char := [hexChar (b / 16), hexChar (b % 16)]

/-- Lowercase hex string of a byte sequence. -/
def bytesToHex (bs : List Nat) : String := ⟨(bs.map byteHex).flatten⟩

/-- UTF-8 bytes of a string, as `Nat` values. -/
def strBytes (s : String) : List Nat := s.toUTF8.toList.map (fun b => b.toNat)

/-! ## Protobuf wire encoding

`prepareProto` in the client marshals a `Command` or `Action` message with
`proto.Marshal`.  The messages built by this program populate only
`Command.arguments` (field 1, repeated string), `Action.command_digest`
(field 1, message) and the `Digest` fields `hash` (field 1, string) and
`size_bytes` (field 2, int64); `proto.Marshal` emits the set fields in
field order and skips zero values. -/

/-- Protobuf base-128 varint encoding of a non-negative integer. -/
def varint (n : Nat) : List Nat :=
  if n < 128 then [n] else (n % 128 + 128) :: varint (n / 128)
termination_by n
decreasing_by exact Nat.div_lt_self (by omega) (by omega)

/-- A CAS digest: lowercase hex SHA-256 plus the byte size.  `size_bytes`
is an `int64` in the proto; every value this program stores in it is a
byte length, so it is modelled as `Nat`. -/
structure Digest where
  hash : String
  sizeBytes : Nat
deriving DecidableEq

/-- Wire encoding of a length-delimited field with the given tag byte. -/
def lenDelim (tag : Nat) (payload : List Nat) : List Nat :=
  tag :: varint payload.length ++ payload

/-- Wire encoding of a `Digest` message: `hash` (field 1, string, skipped
when empty) then `size_bytes` (field 2, varint, skipped when zero). -/
def encodeDigest (d : Digest) : List Nat :=
  (if d.hash = "" then [] else lenDelim 10 (strBytes d.hash)) ++
    (if d.sizeBytes = 0 then [] else 16 :: varint d.sizeBytes)

/-- Wire encoding of a `Command` message whose only set field is
`arguments` (field 1, repeated string): one length-delimited entry per
argument, in order. -/
def encodeCommand (arguments : List String) : List Nat :=
  (arguments.map (fun a => lenDelim 10 (strBytes a))).flatten

/-- Wire encoding of an `Action` message whose only set field is
`command_digest` (field 1, message). -/
def encodeAction (commandDigest : Digest) : List Nat :=
  lenDelim 10 (encodeDigest commandDigest)

/-- Model of `prepareProto`: the digest of a serialized message — the
lowercase hex SHA-256 of the bytes and their count. -/
def prepareProto (data : List Nat) : Digest :=
  { hash := bytesToHex (sha256 data), sizeBytes := data.length }

structure ACProto where
  digest : Digest
  data : List Nat
deriving DecidableEq

structure ACProtos where
  command : ACProto
  action : ACProto
deriving DecidableEq

/-- Model of `prepareACProtos`: build the synthetic `Command` for a key,
digest it, then build the synthetic `Action` referencing that digest. -/
def prepareACProtos (key : String) : ACProtos :=
  let commandData := encodeCommand ["tbc fake command", "key", key]
  let commandDigest := prepareProto commandData
  let actionData := encodeAction commandDigest
  { command := { digest := commandDigest, data := commandData },
    action := { digest := prepareProto actionData, data := actionData } }

/-- The file name the synthetic action result pretends to have generated
(`blobFileName` in the client package). -/
def blobFileName : String := "cache_blob"

/-! ## Key canonicalization (`getKey` in the server package) -/

/-- The query parameters `getKey` reads.  `Option` presence models
`query.Has(...)`; `query.Get` of a present parameter returns the stored
string (possibly empty). -/
structure Query where
  slug : Option String
  teamId : Option String
deriving DecidableEq

/-- Model of Go `strings.Join(parts, "/")`. -/
def joinSlash : List String → String
  | [] => ""
  | [x] => x
  | x :: xs => x ++ "/" ++ joinSlash xs

/-- Model of `getKey`: start from `[hash]`, prepend `teamId` when the
parameter is present, then prepend `slug` when present, and join with
`"/"`.  An empty hash is rejected (the handler writes HTTP 500 "bad hash"
and the caller returns), modelled as `none`. -/
def getKey (hash : String) (q : Query) : Option String :=
  if hash = "" then none
  else
    let p1 := [hash]
    let p2 := match q.teamId with
      | some t => t :: p1
      | none => p1
    let p3 := match q.slug with
      | some s => s :: p2
      | none => p2
    some (joinSlash p3)

/-! ## Metadata codec (server package) -/

/-- A value in the `client.Metadata` map (`map[string]any`).  Uploads via
`collectMetadata` only ever store strings; `nonString` stands for any
other dynamic type (skipped when projecting to response headers). -/
inductive MetaVal where
  | str (s : String)
  | nonString
deriving DecidableEq

/-- Model of `client.Metadata`, as an ordered association list. -/
abbrev Metadata := List (String × MetaVal)

/-- HTTP headers, as a list of name/value pairs.  Go canonicalizes header
names; lookups are therefore case-insensitive. -/
abbrev Headers := List (String × String)

/-- ASCII lower-casing of one character (Go's header canonicalization is
ASCII-based). -/
def lowerChar (c : Char) : Char :=
  if 65 ≤ c.toNat ∧ c.toNat ≤ 90 then Char.ofNat (c.toNat + 32) else c

/-- ASCII lower-casing of a header name. -/
def lowerStr (s : String) : String := ⟨s.data.map lowerChar⟩

/-- Model of Go `http.Header.Get`: first value stored under the
(case-insensitively matched) name, or `""` when absent. -/
def headerGet (hs : Headers) (name : String) : String :=
  match hs.find? (fun p => lowerStr p.1 == lowerStr name) with
  | some p => p.2
  | none => ""

/-- Model of Go `http.Header.Set`: replace any value stored under the
name, or append a new entry. -/
def headerSet (hs : Headers) (name v : String) : Headers :=
  if hs.any (fun p => lowerStr p.1 == lowerStr name) then
    hs.map (fun p => if lowerStr p.1 == lowerStr name then (p.1, v) else p)
  else
    hs ++ [(name, v)]

/-- The fixed metadata header allowlist (`headersForMetadata`). -/
def headersForMetadata : List String := ["x-artifact-duration", "x-artifact-tag"]

/-- Model of `collectMetadata`: walk the allowlist in order and keep the
headers with a non-empty value. -/
def collectMetadata (hs : Headers) : Metadata :=
  headersForMetadata.foldl
    (fun md hdr =>
      let v := headerGet hs hdr
      if v ≠ "" then md ++ [(hdr, MetaVal.str v)] else md)
    []

/-! ## Go errors

Errors are either gRPC status errors (carrying a `codes` value) or
`fault` errors (`fault.New` / `fault.Wrap`), which form a wrapping chain.
`status.FromError` walks the chain and reports the first status error, if
any; `fault.Wrap(nil, ...)` returns `nil`. -/

inductive GoErr where
  | grpc (code : Nat) (msg : String)
  | fault (msg : String)
  | wrapped (msg : String) (cause : GoErr)
deriving DecidableEq

/-- The gRPC `codes.NotFound` value. -/
def notFoundCode : Nat := 5

/-- Model of `status.FromError`: `some code` when the unwrap chain
contains a gRPC status error (the `ok = true` case), `none` otherwise.
`fault.New` errors carry no status. -/
def statusFromError : GoErr → Option Nat
  | .grpc c _ => some c
  | .fault _ => none
  | .wrapped _ e => statusFromError e

/-- Model of `fault.Wrap` applied to a non-nil error. -/
def wrapErr (msg : String) (e : GoErr) : GoErr := .wrapped msg e

/-- Model of `fault.Wrap` on a possibly-nil error: wrapping `nil` yields
`nil` (this is what the fault library does). -/
def faultWrap (msg : String) : Option GoErr → Option GoErr
  | none => none
  | some e => some (wrapErr msg e)

/-- A returned Go `error` value as a call outcome: `nil` is success. -/
def errResult : Option GoErr → Except GoErr Unit
  | none => .ok ()
  | some e => .error e

/-! ## Remote-cache protobuf records -/

structure OutputFile where
  path : String
  digest : Digest
deriving DecidableEq

/-- Model of `ActionResult`, restricted to the fields this program reads and
writes: `output_files` and
`execution_metadata.auxiliary_metadata`.  Each `auxiliary_metadata` entry
is an `Any`-wrapped struct; entries are modelled by the flat map they
decode to.  An absent `execution_metadata` is the empty list (the Go code
reads it through nil-tolerant getters). -/
structure ActionResult where
  outputFiles : List OutputFile
  auxiliaryMetadata : List Metadata
deriving DecidableEq

/-- Model of `convertMetadataToProto`: the metadata map becomes a single
`Any` entry. -/
def convertMetadataToProto (metadata : Metadata) : List Metadata := [metadata]

/-- Model of `convertMetadataFromProto`: anything but exactly one entry
decodes to an empty map (defensively, with a nil error). -/
def convertMetadataFromProto : List Metadata → Metadata
  | [m] => m
  | _ => []

structure BatchResponse where
  digest : Digest
  code : Nat
deriving DecidableEq

/-! ## The gRPC-backed client, over an abstract remote

The remote side (CAS, ActionCache, bytestream) and the UUID source are an
abstract state machine `RpcWorld`: each RPC maps the current state to a
result and a next state.  The client functions below are the shallow
embedding of `client.go` over such a world.  The bytestream writer's
create/copy/close error sites are collapsed into the single `bsWrite`
RPC, and `NewReader`/`Copy` into `bsRead`; `proto.Marshal` and
`structpb.NewStruct` cannot fail on the values this program passes them,
so their error paths are dropped. -/

structure RpcWorld (σ : Type) where
  getActionResult : σ → Digest → Except GoErr ActionResult × σ
  batchUpdateBlobs : σ → List (Digest × List Nat) → Except GoErr (List BatchResponse) × σ
  updateActionResult : σ → Digest → ActionResult → Except GoErr Unit × σ
  bsWrite : σ → String → List Nat → Except GoErr Unit × σ
  bsRead : σ → String → Except GoErr (List Nat) × σ
  newUuid : σ → String × σ

def getDownloadResourceName (d : Digest) : String :=
  "blobs/" ++ d.hash ++ "/" ++ toString d.sizeBytes

def getUploadResourceName (uuid : String) (d : Digest) : String :=
  "uploads/" ++ uuid ++ "/blobs/" ++ d.hash ++ "/" ++ toString d.sizeBytes

/-- Model of `uploadToCAS`: hash the file contents into a digest, then
stream the bytes through the bytestream write API. -/
def uploadToCAS (w : RpcWorld σ) (s : σ) (content : List Nat) : Except GoErr Digest × σ :=
  let d : Digest := { hash := bytesToHex (sha256 content), sizeBytes := content.length }
  let (uuid, s1) := w.newUuid s
  match w.bsWrite s1 (getUploadResourceName uuid d) content with
  | (.ok _, s2) => (.ok d, s2)
  | (.error e, s2) => (.error (wrapErr "upload error" e), s2)

/-- Model of `client.UploadFile`.  `content` is the contents of the file
at the given path (opening and reading the file is not modelled as
fallible). -/
def clientUploadFile (w : RpcWorld σ) (s : σ) (key : String) (content : List Nat)
    (metadata : Metadata) : Except GoErr Unit × σ :=
  match uploadToCAS w s content with
  | (.error e, s1) => (.error (wrapErr "CAS upload failed" e), s1)
  | (.ok fileDigest, s1) =>
    let ps := prepareACProtos key
    match w.batchUpdateBlobs s1
        [(ps.command.digest, ps.command.data), (ps.action.digest, ps.action.data)] with
    | (.error e, s2) => (.error (wrapErr "BatchUpdateBlobs failed" e), s2)
    | (.ok responses, s2) =>
      if responses.any (fun r => r.code ≠ 0) then
        -- Go: `return fault.Wrap(err, fmsg.With("BatchUpdateBlobs failed. ..."))`.
        -- At this point `err` is nil (the RPC itself succeeded), and
        -- `fault.Wrap(nil, ...)` is nil, so the function returns a nil
        -- error here without calling UpdateActionResult.
        (errResult (faultWrap "BatchUpdateBlobs failed" none), s2)
      else
        let eam := if metadata.length > 0 then convertMetadataToProto metadata else []
        let (r, s3) := w.updateActionResult s2 ps.action.digest
          { outputFiles := [{ path := blobFileName, digest := fileDigest }],
            auxiliaryMetadata := eam }
        match r with
        | .ok _ => (.ok (), s3)
        | .error e => (.error (wrapErr "UpdateActionResult failed" e), s3)

/-- Model of `locateArtifact`: fetch the action result for the synthetic
action digest and find the `cache_blob` output file. -/
def locateArtifact (w : RpcWorld σ) (s : σ) (key : String) :
    Except GoErr (OutputFile × Metadata) × σ :=
  let ps := prepareACProtos key
  match w.getActionResult s ps.action.digest with
  | (.error e, s1) => (.error (wrapErr "GetActionResult failed" e), s1)
  | (.ok resp, s1) =>
    match resp.outputFiles.find? (fun f => f.path == blobFileName) with
    | none => (.error (.fault "cache blob not found amount output files"), s1)
    | some of => (.ok (of, convertMetadataFromProto resp.auxiliaryMetadata), s1)

/-- Model of `client.FindFile`: a NotFound status means "absent"; any
other error propagates. -/
def clientFindFile (w : RpcWorld σ) (s : σ) (key : String) : Except GoErr Bool × σ :=
  match locateArtifact w s key with
  | (.error e, s1) =>
    match statusFromError e with
    | some c => if c = notFoundCode then (.ok false, s1) else (.error e, s1)
    | none => (.error e, s1)
  | (.ok _, s1) => (.ok true, s1)

/-- Model of `client.DownloadFile`: locate the artifact, then stream the
blob through the bytestream read API; returns the bytes written to the
sink together with the decoded metadata. -/
def clientDownloadFile (w : RpcWorld σ) (s : σ) (key : String) :
    Except GoErr (List Nat × Metadata) × σ :=
  match locateArtifact w s key with
  | (.error e, s1) => (.error e, s1)
  | (.ok (of, md), s1) =>
    match w.bsRead s1 (getDownloadResourceName of.digest) with
    | (.error e, s2) => (.error (wrapErr "NewReader failed" e), s2)
    | (.ok bytes, s2) => (.ok (bytes, md), s2)

/-! ## The client interface and its two implementations -/

/-- Model of `client.Interface`, as consumed by the HTTP server.  The upload takes
the uploaded file's contents; the download returns the bytes written to
the sink. -/
structure ClientIface (σ : Type) where
  uploadFile : σ → String → List Nat → Metadata → Except GoErr Unit × σ
  findFile : σ → String → Except GoErr Bool × σ
  downloadFile : σ → String → Except GoErr (List Nat × Metadata) × σ

/-- The gRPC-backed client over a remote world. -/
def realClient (w : RpcWorld σ) : ClientIface σ :=
  { uploadFile := clientUploadFile w
    findFile := clientFindFile w
    downloadFile := clientDownloadFile w }

/-- An artifact stored by the in-memory client. -/
structure Artifact where
  data : List Nat
  metadata : Metadata
deriving DecidableEq

/-- The in-memory client's store (`map[string]artifact`); the newest
binding for a key shadows older ones. -/
abbrev Store := List (String × Artifact)

def storeFind (s : Store) (key : String) : Option Artifact :=
  (s.find? (fun p => p.1 == key)).map (fun p => p.2)

/-- Model of `InMemoryClient`. -/
def inMemoryClient : ClientIface Store :=
  { uploadFile := fun s key content metadata =>
      (.ok (), (key, { data := content, metadata := metadata }) :: s)
    findFile := fun s key => (.ok (storeFind s key).isSome, s)
    downloadFile := fun s key =>
      match storeFind s key with
      | some a => (.ok (a.data, a.metadata), s)
      | none => (.error (.grpc notFoundCode "artifact not found"), s) }

/-! ## Server statistics -/

/-- Model of `server.Stats`.  Go `int` and `int64` are signed, so the counters are
modelled as `Int`. -/
structure Stats where
  errorsCount : Int
  uploadCount : Int
  existsYesCount : Int
  existsNoCount : Int
  downloadCount : Int
  downloadNotFoundCount : Int
  uploadedBytes : Int
  downloadedBytes : Int
deriving DecidableEq

def Stats.zero : Stats := ⟨0, 0, 0, 0, 0, 0, 0, 0⟩

/-- The struct fields of `Stats` with their `slog` tags, in declaration
order (this is the order the `reflect` loop in `SlogArgs` visits). -/
def statsFields (st : Stats) : List (String × Int) :=
  [("errors", st.errorsCount),
   ("uploads", st.uploadCount),
   ("exists_yes", st.existsYesCount),
   ("exists_no", st.existsNoCount),
   ("downloads", st.downloadCount),
   ("downloads_not_found", st.downloadNotFoundCount),
   ("ul_bytes", st.uploadedBytes),
   ("dl_bytes", st.downloadedBytes)]

/-- Model of `Stats.SlogArgs`: emit the tagged fields whose value is
strictly positive; when none qualify, emit the single sentinel
`cache_requests = 0`. -/
def Stats.slogArgs (st : Stats) : List (String × Int) :=
  let result := (statsFields st).filter (fun p => 0 < p.2)
  if result.isEmpty then [("cache_requests", 0)] else result

/-- Model of `Server.logError`: the part of it that touches observable state
(incrementing the errors counter). -/
def logError (st : Stats) : Stats := { st with errorsCount := st.errorsCount + 1 }

/-! ## The HTTP artifact server -/

/-- Model of `server.Options`. -/
structure Options where
  token : String

/-- An HTTP request, at the level of detail the server inspects: method,
path segments, the two recognized query parameters, headers, and the raw
body.  Path segments come from URL splitting, so a segment never contains
`/`. -/
structure Req where
  method : String
  path : List String
  query : Query
  headers : Headers
  body : List Nat
deriving DecidableEq

/-- A response body: handler-written text (including JSON) or served
artifact bytes. -/
inductive Body where
  | text (s : String)
  | bin (l : List Nat)
deriving DecidableEq

structure Resp where
  status : Nat
  headers : Headers
  body : Body
deriving DecidableEq

/-- Model of `http.Error`: status code plus the message and a newline.  (The
canned `Content-Type: text/plain` header it also sets is not modelled;
no claim inspects error-response headers.) -/
def httpError (msg : String) (code : Nat) : Resp :=
  { status := code, headers := [], body := .text (msg ++ "\n") }

/-- The routes registered on the `/v8/artifacts` subrouter. -/
inductive Route where
  | events
  | status
  | upload (hash : String)
  | head (hash : String)
  | download (hash : String)
deriving DecidableEq

/-- The mux routing table, tried in registration order: `/events` POST,
`/status` GET, then `/{hash}` for PUT, HEAD, GET.  `{hash}` matches one
non-empty path segment. -/
def matchRoute (method : String) (path : List String) : Option Route :=
  match path with
  | [a, b, seg] =>
    if a = "v8" ∧ b = "artifacts" ∧ seg ≠ "" then
      if seg = "events" ∧ method = "POST" then some .events
      else if seg = "status" ∧ method = "GET" then some .status
      else if method = "PUT" then some (.upload seg)
      else if method = "HEAD" then some (.head seg)
      else if method = "GET" then some (.download seg)
      else none
    else none
  | _ => none

/-- The router's response when no route matches: 405 when the path shape
matches a registered template but the method does not, 404 otherwise. -/
def noRouteResp (path : List String) : Resp :=
  match path with
  | [a, b, seg] =>
    if a = "v8" ∧ b = "artifacts" ∧ seg ≠ "" then
      { status := 405, headers := [], body := .text "" }
    else { status := 404, headers := [], body := .text "404 page not found\n" }
  | _ => { status := 404, headers := [], body := .text "404 page not found\n" }

/-- Model of `uploadArtifactHandler`: derive the key, hand the body bytes
and the collected metadata to the client, and on success count the upload
and its size and answer 202 with an empty URL list. -/
def uploadArtifactHandler (cl : ClientIface σ) (r : Req) (hash : String) (s : σ) (st : Stats) :
    Resp × σ × Stats :=
  match getKey hash r.query with
  | none => (httpError "bad hash" 500, s, st)
  | some key =>
    let size : Nat := r.body.length
    match cl.uploadFile s key r.body (collectMetadata r.headers) with
    | (.error _, s1) => (httpError "unable to upload" 500, s1, logError st)
    | (.ok _, s1) =>
      ({ status := 202, headers := [], body := .text "\x7b\"urls\":[]\x7d\n" }, s1,
       { st with uploadCount := st.uploadCount + 1,
                 uploadedBytes := st.uploadedBytes + (size : Int) })

/-- Model of `artifactExistsHandler`. -/
def artifactExistsHandler (cl : ClientIface σ) (r : Req) (hash : String) (s : σ) (st : Stats) :
    Resp × σ × Stats :=
  match getKey hash r.query with
  | none => (httpError "bad hash" 500, s, st)
  | some key =>
    match cl.findFile s key with
    | (.error _, s1) => (httpError "Error looking up file" 500, s1, logError st)
    | (.ok true, s1) =>
      ({ status := 200, headers := [], body := .text "" }, s1,
       { st with existsYesCount := st.existsYesCount + 1 })
    | (.ok false, s1) =>
      ({ status := 404, headers := [], body := .text "" }, s1,
       { st with existsNoCount := st.existsNoCount + 1 })

/-- Project string-valued metadata entries into response headers
(`w.Header().Set(k, v)` for each string value). -/
def projectMetadata (hs : Headers) (md : Metadata) : Headers :=
  md.foldl
    (fun acc p =>
      match p.2 with
      | .str v => headerSet acc p.1 v
      | .nonString => acc)
    hs

/-- Model of `downloadArtifactHandler`: download into the temp file; a
NotFound status answers 404 and counts a miss, any other error answers
500 and counts an error; on success set `Content-Type`, project the
metadata into headers, count the download and its on-disk size, and serve
the bytes. -/
def downloadArtifactHandler (cl : ClientIface σ) (r : Req) (hash : String) (s : σ) (st : Stats) :
    Resp × σ × Stats :=
  match getKey hash r.query with
  | none => (httpError "bad hash" 500, s, st)
  | some key =>
    match cl.downloadFile s key with
    | (.error e, s1) =>
      match statusFromError e with
      | some c =>
        if c = notFoundCode then
          (httpError "key not found" 404, s1,
           { st with downloadNotFoundCount := st.downloadNotFoundCount + 1 })
        else (httpError "unable to download" 500, s1, logError st)
      | none => (httpError "unable to download" 500, s1, logError st)
    | (.ok (bytes, md), s1) =>
      ({ status := 200,
         headers := projectMetadata (headerSet [] "Content-Type" "application/octet-stream") md,
         body := .bin bytes }, s1,
       { st with downloadCount := st.downloadCount + 1,
                 downloadedBytes := st.downloadedBytes + (bytes.length : Int) })

/-- One request through the handler created by `CreateHandler`: route,
then (when a token is configured) the bearer gate, then the matched
handler.  Returns the response and the updated client state and stats. -/
def handle (opts : Options) (cl : ClientIface σ) (r : Req) (s : σ) (st : Stats) :
    Resp × σ × Stats :=
  match matchRoute r.method r.path with
  | none => (noRouteResp r.path, s, st)
  | some rt =>
    if opts.token ≠ "" ∧ headerGet r.headers "Authorization" ≠ "Bearer " ++ opts.token then
      (httpError "Forbidden" 403, s, st)
    else
      match rt with
      | .events => ({ status := 200, headers := [], body := .text "" }, s, st)
      | .status =>
        ({ status := 200, headers := [("Content-Type", "application/json")],
           body := .text "\x7b\"status\":\"enabled\"\x7d\n" }, s, st)
      | .upload h => uploadArtifactHandler cl r h s st
      | .head h => artifactExistsHandler cl r h s st
      | .download h => downloadArtifactHandler cl r h s st

/-- Run a sequence of requests through the server, pairing each request
with its response. -/
def runTrace (opts : Options) (cl : ClientIface σ) :
    List Req → σ → Stats → List (Req × Resp) × σ × Stats
  | [], s, st => ([], s, st)
  | r :: rs, s, st =>
    let x := handle opts cl r s st
    let rest := runTrace opts cl rs x.2.1 x.2.2
    ((r, x.1) :: rest.1, rest.2.1, rest.2.2)

/-! ## Fixtures and trace predicates used by the verified properties -/

/-- A present query parameter whose value contains no `/`. -/
def slashFreeOpt : Option String → Prop
  | none => True
  | some s => '/' ∉ s.data

/-- Two scopes with the same presence pattern. -/
def samePattern (q1 q2 : Query) : Prop :=
  q1.slug.isSome = q2.slug.isSome ∧ q1.teamId.isSome = q2.teamId.isSome

/-- A remote world for exercising the status-code check: the state flag
records whether `UpdateActionResult` was ever called; `BatchUpdateBlobs`
succeeds as an RPC but reports status code 5 on its second sub-response. -/
def batchFailWorld : RpcWorld Bool :=
  { getActionResult := fun s _ => (.error (.grpc notFoundCode "not found"), s)
    batchUpdateBlobs := fun s _ =>
      (.ok [{ digest := ⟨"", 0⟩, code := 0 }, { digest := ⟨"", 0⟩, code := 5 }], s)
    updateActionResult := fun _ _ _ => (.ok (), true)
    bsWrite := fun s _ _ => (.ok (), s)
    bsRead := fun s _ => (.ok [], s)
    newUuid := fun s => ("00000000-0000-0000-0000-000000000000", s) }

/-- A concrete remote whose `GetActionResult` always succeeds with an
action result that has no output files at all. -/
def noBlobWorld : RpcWorld Unit :=
  { getActionResult := fun s _ => (.ok { outputFiles := [], auxiliaryMetadata := [] }, s)
    batchUpdateBlobs := fun s _ => (.ok [], s)
    updateActionResult := fun s _ _ => (.ok (), s)
    bsWrite := fun s _ _ => (.ok (), s)
    bsRead := fun s _ => (.ok [], s)
    newUuid := fun s => ("00000000-0000-0000-0000-000000000000", s) }

/-- The PUT request uploading body `B` with headers `M` under hash `h`
scoped by `q`. -/
def putReqOf (h : String) (q : Query) (M : Headers) (B : List Nat) : Req :=
  { method := "PUT", path := ["v8", "artifacts", h], query := q, headers := M, body := B }

/-- The GET request downloading hash `h` scoped by `q`, with request
headers `M2`. -/
def getReqOf (h : String) (q : Query) (M2 : Headers) : Req :=
  { method := "GET", path := ["v8", "artifacts", h], query := q, headers := M2, body := [] }

/-- A PUT request that completed successfully (the handler answers 202
exactly on upload success). -/
def isSuccessfulPut (p : Req × Resp) : Bool :=
  p.1.method == "PUT" && p.2.status == 202

/-- An artifact GET that completed successfully: a 200-status GET other
than the status endpoint (`GET /v8/artifacts/status` also answers 200 but
is not a download). -/
def isSuccessfulDownload (p : Req × Resp) : Bool :=
  p.1.method == "GET" && p.2.status == 200 && !(p.1.path == ["v8", "artifacts", "status"])

/-- A response with a 5xx status. -/
def is5xx (r : Resp) : Bool :=
  decide (500 ≤ r.status) && decide (r.status < 600)

/-- The size of a served binary body (download responses serve the
downloaded bytes). -/
def respBinSize (b : Body) : Int :=
  match b with
  | .bin l => (l.length : Int)
  | .text _ => 0

/-! ## Helper lemmas -/

lemma joinSlash_pair (a b : String) : joinSlash [a, b] = a ++ "/" ++ b := rfl

lemma joinSlash_triple (a b c : String) :
    joinSlash [a, b, c] = a ++ "/" ++ (b ++ "/" ++ c) := rfl

/-- Splitting a character list at a separator that occurs in neither
prefix is unambiguous. -/
lemma slash_split : ∀ (a : List Char) (u b v : List Char),
    '/' ∉ a → '/' ∉ b → a ++ '/' :: u = b ++ '/' :: v → a = b ∧ u = v := by
  intro a
  induction a with
  | nil =>
    intro u b v _ hb h
    cases b with
    | nil => simpa using h
    | cons y ys =>
      simp only [List.nil_append, List.cons_append, List.cons.injEq] at h
      exact absurd (h.1 ▸ List.mem_cons_self y ys) hb
  | cons x xs ih =>
    intro u b v ha hb h
    cases b with
    | nil =>
      simp only [List.nil_append, List.cons_append, List.cons.injEq] at h
      exact absurd (h.1 ▸ List.mem_cons_self x xs) ha
    | cons y ys =>
      simp only [List.cons_append, List.cons.injEq] at h
      obtain ⟨hxy, hrest⟩ := h
      have hxs : '/' ∉ xs := fun hm => ha (List.mem_cons_of_mem _ hm)
      have hys : '/' ∉ ys := fun hm => hb (List.mem_cons_of_mem _ hm)
      obtain ⟨h1, h2⟩ := ih u ys v hxs hys hrest
      exact ⟨by rw [hxy, h1], h2⟩

lemma string_append_data (s t : String) : (s ++ t).data = s.data ++ t.data :=
  String.data_append ..

/-! ## C4: key canonicalization -/

/-- C4.  For every non-empty hash and every query, the canonical key is
the `"/"`-join of, in order, the `slug` parameter (included iff present,
even when empty), the `teamId` parameter (included iff present, even when
empty), and the hash — presence, not non-emptiness, gates inclusion. -/
theorem getKey_canonical (hash : String) (q : Query) (hh : hash ≠ "") :
    getKey hash q =
      some (joinSlash (([q.slug, q.teamId].filterMap id) ++ [hash])) := by
  cases q with
  | mk slug teamId =>
    cases slug <;> cases teamId <;> simp [getKey, hh, joinSlash]

/-- C4 witness: a concrete evaluation of the canonicalization rule. -/
theorem getKey_canonical_witness :
    getKey "h" ⟨some "s", some "t"⟩ =
      some (joinSlash ((([some "s", some "t"] : List (Option String)).filterMap id) ++ ["h"])) :=
  getKey_canonical "h" ⟨some "s", some "t"⟩ (by decide)

/-! ## C5: scope isolation (corrected)

The claim fails as stated: a slug-only scope and a teamId-only scope with
the same value produce the same canonical key. -/

/-- C5 counterexample: the scope pairs `(slug = "x", no teamId)` and
`(no slug, teamId = "x")` are distinct, yet canonicalize the hash `"h"`
to the same key `"x/h"`. -/
theorem scope_isolation_counterexample :
    (Query.mk (some "x") none ≠ Query.mk none (some "x")) ∧
      getKey "h" (Query.mk (some "x") none) = getKey "h" (Query.mk none (some "x")) := by
  constructor
  · decide
  · rfl

lemma slash_data : ("/" : String).data = ['/'] := rfl

/-- Same-pattern slash-free canonicalization is injective. -/
lemma getKey_same_pattern_inj (q1 q2 : Query) (hash : String) (hh : hash ≠ "")
    (hp : samePattern q1 q2)
    (h1s : slashFreeOpt q1.slug) (h1t : slashFreeOpt q1.teamId)
    (h2s : slashFreeOpt q2.slug) (h2t : slashFreeOpt q2.teamId)
    (heq : getKey hash q1 = getKey hash q2) : q1 = q2 := by
  obtain ⟨s1, t1⟩ := q1
  obtain ⟨s2, t2⟩ := q2
  obtain ⟨hps, hpt⟩ := hp
  cases s1 <;> cases s2 <;> cases t1 <;> cases t2 <;> simp at hps hpt
  · rfl
  · rename_i t1 t2
    have heq2 : t1 ++ "/" ++ hash = t2 ++ "/" ++ hash := by
      have h' := heq
      simp [getKey, hh, joinSlash_pair] at h'
      exact h'
    have hd := congrArg String.data heq2
    simp only [string_append_data, slash_data, List.append_assoc, List.singleton_append] at hd
    have ht : t1.data = t2.data := List.append_cancel_right hd
    rw [String.ext ht]
  · rename_i s1 s2
    have heq2 : s1 ++ "/" ++ hash = s2 ++ "/" ++ hash := by
      have h' := heq
      simp [getKey, hh, joinSlash_pair] at h'
      exact h'
    have hd := congrArg String.data heq2
    simp only [string_append_data, slash_data, List.append_assoc, List.singleton_append] at hd
    have hs : s1.data = s2.data := List.append_cancel_right hd
    rw [String.ext hs]
  · rename_i s1 s2 t1 t2
    have heq2 : s1 ++ "/" ++ (t1 ++ "/" ++ hash) = s2 ++ "/" ++ (t2 ++ "/" ++ hash) := by
      have h' := heq
      simp [getKey, hh, joinSlash_triple] at h'
      exact h'
    have hd := congrArg String.data heq2
    simp only [string_append_data, slash_data, List.append_assoc, List.singleton_append] at hd
    obtain ⟨hs, hrest⟩ := slash_split s1.data _ s2.data _ h1s h2s hd
    obtain ⟨ht, _⟩ := slash_split t1.data _ t2.data _ h1t h2t hrest
    rw [String.ext hs, String.ext ht]

/-- C5 amended: distinct `(slug, teamId)` scope pairs that have the same
presence pattern and whose present values contain no `/` yield distinct
canonical keys for the same (non-empty) hash, so such scopes are disjoint
namespaces. -/
theorem scope_isolation_same_pattern (q1 q2 : Query) (hash : String) (hh : hash ≠ "")
    (hp : samePattern q1 q2)
    (h1s : slashFreeOpt q1.slug) (h1t : slashFreeOpt q1.teamId)
    (h2s : slashFreeOpt q2.slug) (h2t : slashFreeOpt q2.teamId)
    (hne : q1 ≠ q2) : getKey hash q1 ≠ getKey hash q2 :=
  fun heq => hne (getKey_same_pattern_inj q1 q2 hash hh hp h1s h1t h2s h2t heq)

/-- C5 witness: two distinct both-present slash-free scopes give distinct
keys. -/
theorem scope_isolation_same_pattern_witness :
    getKey "h" ⟨some "a", some "b"⟩ ≠ getKey "h" ⟨some "c", some "b"⟩ :=
  scope_isolation_same_pattern ⟨some "a", some "b"⟩ ⟨some "c", some "b"⟩ "h"
    (by decide) ⟨rfl, rfl⟩
    ((by decide : ('/' : Char) ∉ String.data "a"))
    ((by decide : ('/' : Char) ∉ String.data "b"))
    ((by decide : ('/' : Char) ∉ String.data "c"))
    ((by decide : ('/' : Char) ∉ String.data "b"))
    (by decide)

/-! ## C9: the summary formatter (corrected)

`SlogArgs` filters with `v > 0`, not `v ≠ 0`; on a `Stats` value holding a
negative counter (representable, since Go `int` is signed, though never
produced by the server's own increments) the claim's "non-zero" reading
fails. -/

/-- C9 counterexample: a `Stats` value whose errors counter is `-1` has a
non-zero counter, yet the formatter emits the all-zero sentinel (and not
the `("errors", -1)` pair). -/
theorem slogArgs_counterexample :
    Stats.slogArgs { Stats.zero with errorsCount := -1 } = [("cache_requests", 0)] ∧
      ({ Stats.zero with errorsCount := -1 } : Stats).errorsCount ≠ 0 ∧
      ("errors", (-1 : Int)) ∉ Stats.slogArgs { Stats.zero with errorsCount := -1 } := by
  refine ⟨rfl, by decide, by decide⟩

/-- C9 amended: for every `Stats` value with non-negative counters (as
the server maintains), the formatter emits exactly the (label, value)
pairs of the non-zero counters, in field order, and emits the single
sentinel pair `cache_requests = 0` iff every counter is zero. -/
theorem slogArgs_nonneg (st : Stats) (h : ∀ p ∈ statsFields st, 0 ≤ p.2) :
    Stats.slogArgs st =
      if (statsFields st).all (fun p => p.2 == 0) then [("cache_requests", 0)]
      else (statsFields st).filter (fun p => p.2 != 0) := by
  unfold Stats.slogArgs
  have hfc : (statsFields st).filter (fun p => 0 < p.2) =
      (statsFields st).filter (fun p => p.2 != 0) := by
    apply List.filter_congr
    intro p hp
    have h0 := h p hp
    by_cases hz : p.2 = 0
    · simp [hz]
    · simp [hz, lt_of_le_of_ne h0 (Ne.symm hz)]
  rw [hfc]
  by_cases hall : ∀ p ∈ statsFields st, p.2 = 0
  · have hnil : (statsFields st).filter (fun p => p.2 != 0) = [] :=
      List.filter_eq_nil_iff.mpr (fun a ha => by simp [hall a ha])
    have hallb : (statsFields st).all (fun p => p.2 == 0) = true := by
      rw [List.all_eq_true]
      intro p hp
      simp [hall p hp]
    simp [hnil, hallb]
  · push_neg at hall
    obtain ⟨p, hp, hnz⟩ := hall
    have hne : (statsFields st).filter (fun p => p.2 != 0) ≠ [] := by
      intro hnil
      have := List.filter_eq_nil_iff.mp hnil p hp
      simp [hnz] at this
    have hallb : (statsFields st).all (fun p => p.2 == 0) = false := by
      rw [List.all_eq_false]
      exact ⟨p, hp, by simp [hnz]⟩
    simp [List.isEmpty_iff, hne, hallb]

/-- C9 witness: a stats value with two non-zero counters formats to
exactly those two pairs. -/
theorem slogArgs_nonneg_witness :
    Stats.slogArgs { Stats.zero with uploadCount := 2, uploadedBytes := 7 } =
      if (statsFields { Stats.zero with uploadCount := 2, uploadedBytes := 7 }).all
          (fun p => p.2 == 0) then [("cache_requests", 0)]
      else (statsFields { Stats.zero with uploadCount := 2, uploadedBytes := 7 }).filter
        (fun p => p.2 != 0) :=
  slogArgs_nonneg _ (by decide)

/-! ## C6: synthetic protos and digest determinism -/

lemma wordBytes_lt (w : Nat) : ∀ b ∈ wordBytes w, b < 256 := by
  intro b hb
  simp [wordBytes] at hb
  rcases hb with rfl | rfl | rfl | rfl <;> omega

lemma sha256_bytes_lt (msg : List Nat) : ∀ b ∈ sha256 msg, b < 256 := by
  intro b hb
  simp only [sha256, sha256StateBytes, List.mem_append] at hb
  rcases hb with ((((((hb | hb) | hb) | hb) | hb) | hb) | hb) | hb <;>
    exact wordBytes_lt _ _ hb

lemma sha256_length (msg : List Nat) : (sha256 msg).length = 32 := by
  simp [sha256, sha256StateBytes, wordBytes]

lemma hexChar_mem : ∀ n, n < 16 → hexChar n ∈ hexDigits := by decide

lemma byteHex_mem (b : Nat) (hb : b < 256) : ∀ c ∈ byteHex b, c ∈ hexDigits := by
  intro c hc
  simp [byteHex] at hc
  rcases hc with rfl | rfl
  · exact hexChar_mem _ (by omega)
  · exact hexChar_mem _ (by omega)

lemma bytesToHex_data (bs : List Nat) : (bytesToHex bs).data = (bs.map byteHex).flatten := rfl

lemma bytesToHex_length (bs : List Nat) : (bytesToHex bs).length = 2 * bs.length := by
  show ((bs.map byteHex).flatten).length = 2 * bs.length
  induction bs with
  | nil => rfl
  | cons b t ih =>
    simp only [List.map_cons, List.flatten_cons, List.length_append, byteHex] at *
    simp at *
    omega

lemma bytesToHex_mem (bs : List Nat) (h : ∀ b ∈ bs, b < 256) :
    ∀ c ∈ (bytesToHex bs).data, c ∈ hexDigits := by
  intro c hc
  rw [bytesToHex_data, List.mem_flatten] at hc
  obtain ⟨l, hl, hcl⟩ := hc
  obtain ⟨b, hb, rfl⟩ := List.mem_map.mp hl
  exact byteHex_mem b (h b hb) c hcl

/-- C6.  For every canonical key, the synthetic `Command` serialization
encodes exactly the arguments `["tbc fake command", "key", key]` (and no
other field), the synthetic `Action` serialization encodes only the
command digest, and both digests consist of the lowercase 64-character
hex SHA-256 of the serialized bytes plus the serialized length.
Determinism is by construction: `prepareACProtos` is a pure function of
the key, so two invocations on the same key are byte-equal. -/
theorem prepareACProtos_spec (key : String) :
    (prepareACProtos key).command.data = encodeCommand ["tbc fake command", "key", key] ∧
    (prepareACProtos key).command.digest.hash =
      bytesToHex (sha256 ((prepareACProtos key).command.data)) ∧
    (prepareACProtos key).command.digest.sizeBytes = (prepareACProtos key).command.data.length ∧
    (prepareACProtos key).action.data = encodeAction (prepareACProtos key).command.digest ∧
    (prepareACProtos key).action.digest.hash =
      bytesToHex (sha256 ((prepareACProtos key).action.data)) ∧
    (prepareACProtos key).action.digest.sizeBytes = (prepareACProtos key).action.data.length ∧
    (prepareACProtos key).command.digest.hash.length = 64 ∧
    (prepareACProtos key).action.digest.hash.length = 64 ∧
    (∀ c ∈ (prepareACProtos key).command.digest.hash.data, c ∈ hexDigits) ∧
    (∀ c ∈ (prepareACProtos key).action.digest.hash.data, c ∈ hexDigits) := by
  refine ⟨rfl, rfl, rfl, rfl, rfl, rfl, ?_, ?_, ?_, ?_⟩
  · show (bytesToHex (sha256 (encodeCommand ["tbc fake command", "key", key]))).length = 64
    rw [bytesToHex_length, sha256_length]
  · show (bytesToHex (sha256 (encodeAction
      (prepareProto (encodeCommand ["tbc fake command", "key", key]))))).length = 64
    rw [bytesToHex_length, sha256_length]
  · exact bytesToHex_mem _ (sha256_bytes_lt _)
  · exact bytesToHex_mem _ (sha256_bytes_lt _)

/-- C6 witness: the specification instantiated at a concrete key. -/
theorem prepareACProtos_spec_witness :
    (prepareACProtos "k").command.data = encodeCommand ["tbc fake command", "key", "k"] ∧
    (prepareACProtos "k").command.digest.hash =
      bytesToHex (sha256 ((prepareACProtos "k").command.data)) ∧
    (prepareACProtos "k").command.digest.sizeBytes = (prepareACProtos "k").command.data.length ∧
    (prepareACProtos "k").action.data = encodeAction (prepareACProtos "k").command.digest ∧
    (prepareACProtos "k").action.digest.hash =
      bytesToHex (sha256 ((prepareACProtos "k").action.data)) ∧
    (prepareACProtos "k").action.digest.sizeBytes = (prepareACProtos "k").action.data.length ∧
    (prepareACProtos "k").command.digest.hash.length = 64 ∧
    (prepareACProtos "k").action.digest.hash.length = 64 ∧
    (∀ c ∈ (prepareACProtos "k").command.digest.hash.data, c ∈ hexDigits) ∧
    (∀ c ∈ (prepareACProtos "k").action.digest.hash.data, c ∈ hexDigits) :=
  prepareACProtos_spec "k"

/-! ## C2: a non-zero BatchUpdateBlobs sub-response status (code bug)

The loop in `UploadFile` that checks the sub-response status codes does
`return fault.Wrap(err, fmsg.With("BatchUpdateBlobs failed. ..."))`, but
`err` is necessarily nil at that point (the `BatchUpdateBlobs` call
itself just succeeded), and `fault.Wrap(nil, ...)` returns nil, so the
function returns a nil error: the upload is reported successful even
though the `ActionResult` is never written. -/

/-- C2 (code bug, evaluated at the failing input).  With a non-zero
sub-response status code, `UploadFile` does skip `UpdateActionResult`
(the flag stays `false`) — but it returns success (`.ok ()`), not the
error the claim and the spec require, because the wrapped error is nil. -/
theorem uploadFile_batch_status_code_bug :
    clientUploadFile batchFailWorld false "key1" [1, 2, 3] [] = (.ok (), false) := rfl

/-! ## C7: the bearer gate -/

lemma noRouteResp_status_ne_403 (p : List String) : (noRouteResp p).status ≠ 403 := by
  unfold noRouteResp
  split
  · split <;> simp
  · simp

lemma uploadArtifactHandler_status_ne_403 (cl : ClientIface σ) (r : Req) (h : String) (s : σ)
    (st : Stats) : (uploadArtifactHandler cl r h s st).1.status ≠ 403 := by
  unfold uploadArtifactHandler
  split
  · simp [httpError]
  · split <;> simp [httpError]

lemma artifactExistsHandler_status_ne_403 (cl : ClientIface σ) (r : Req) (h : String) (s : σ)
    (st : Stats) : (artifactExistsHandler cl r h s st).1.status ≠ 403 := by
  unfold artifactExistsHandler
  split
  · simp [httpError]
  · split <;> simp [httpError]

lemma downloadArtifactHandler_status_ne_403 (cl : ClientIface σ) (r : Req) (h : String) (s : σ)
    (st : Stats) : (downloadArtifactHandler cl r h s st).1.status ≠ 403 := by
  unfold downloadArtifactHandler
  split
  · simp [httpError]
  · split
    · split
      · split <;> simp [httpError]
      · simp [httpError]
    · simp

/-- C7.  (1) When a non-empty token is configured, any request that
reaches a registered `/v8/artifacts` route without the exact
`Bearer <token>` authorization header is answered 403 Forbidden and the
handler is not invoked: client state and stats are returned unchanged.
(2) When the configured token is empty, the gate is disabled: no request
is ever answered 403. -/
theorem bearer_gate :
    (∀ (σ : Type) (cl : ClientIface σ) (opts : Options) (r : Req) (s : σ) (st : Stats)
        (rt : Route),
        opts.token ≠ "" →
        matchRoute r.method r.path = some rt →
        headerGet r.headers "Authorization" ≠ "Bearer " ++ opts.token →
        handle opts cl r s st = (httpError "Forbidden" 403, s, st)) ∧
    (∀ (σ : Type) (cl : ClientIface σ) (r : Req) (s : σ) (st : Stats),
        (handle { token := "" } cl r s st).1.status ≠ 403) := by
  constructor
  · intro σ cl opts r s st rt htok hm hauth
    simp only [handle]
    rw [hm]
    simp [htok, hauth]
  · intro σ cl r s st
    simp only [handle]
    split
    · exact noRouteResp_status_ne_403 _
    · rename_i rt _
      have : ¬ (({ token := "" } : Options).token ≠ "" ∧
          headerGet r.headers "Authorization" ≠ "Bearer " ++ ({ token := "" } : Options).token) := by
        simp
      rw [if_neg this]
      cases rt with
      | events => simp
      | status => simp
      | upload h => exact uploadArtifactHandler_status_ne_403 cl r h s st
      | head h => exact artifactExistsHandler_status_ne_403 cl r h s st
      | download h => exact downloadArtifactHandler_status_ne_403 cl r h s st

/-- C7 witness: with token `"t0k3n"` configured, a POST to
`/v8/artifacts/events` with no authorization header is answered 403 with
no state change; with an empty token the same request is not rejected. -/
theorem bearer_gate_witness :
    handle { token := "t0k3n" } inMemoryClient
        { method := "POST", path := ["v8", "artifacts", "events"], query := ⟨none, none⟩,
          headers := [], body := [] } [] Stats.zero =
      (httpError "Forbidden" 403, [], Stats.zero) ∧
    (handle { token := "" } inMemoryClient
        { method := "POST", path := ["v8", "artifacts", "events"], query := ⟨none, none⟩,
          headers := [], body := [] } [] Stats.zero).1.status ≠ 403 := by
  constructor
  · exact bearer_gate.1 Store inMemoryClient { token := "t0k3n" } _ [] Stats.zero Route.events
      (by decide) (by decide) (by decide)
  · exact bearer_gate.2 Store inMemoryClient _ [] Stats.zero

/-! ## C3 / C10: an action result without the `cache_blob` output -/

lemma matchRoute_put (h : String) (hh : h ≠ "") :
    matchRoute "PUT" ["v8", "artifacts", h] = some (.upload h) := by
  simp [matchRoute, hh]

lemma matchRoute_head (h : String) (hh : h ≠ "") :
    matchRoute "HEAD" ["v8", "artifacts", h] = some (.head h) := by
  simp [matchRoute, hh]

lemma matchRoute_get (h : String) (hh : h ≠ "") (hst : h ≠ "status") :
    matchRoute "GET" ["v8", "artifacts", h] = some (.download h) := by
  simp [matchRoute, hh, hst]

/-- When `GetActionResult` succeeds but no output file is named
`cache_blob`, `locateArtifact` fails with the distinct `fault.New` error
(which carries no gRPC status). -/
lemma locateArtifact_noBlob (w : RpcWorld σ) (s s' : σ) (key : String) (ar : ActionResult)
    (hget : w.getActionResult s (prepareACProtos key).action.digest = (.ok ar, s'))
    (hnb : ∀ f ∈ ar.outputFiles, f.path ≠ blobFileName) :
    locateArtifact w s key = (.error (.fault "cache blob not found amount output files"), s') := by
  have hfind : ar.outputFiles.find? (fun f => f.path == blobFileName) = none :=
    List.find?_eq_none.mpr (fun f hf => by simp [hnb f hf])
  simp [locateArtifact, hget, hfind]

/-- C10.  When `GetActionResult` succeeds for a key but the action result
has no output file at path `cache_blob`, `FindFile` does not report the
key absent — it returns the fault error — and the HEAD handler therefore
answers 500 and increments only the errors counter (neither `exists_no`
nor `exists_yes` changes). -/
theorem findFile_missing_blob (w : RpcWorld σ) (s s' : σ) (st : Stats) (ar : ActionResult)
    (key h : String) (q : Query) (hdrs : Headers) (body : List Nat)
    (hh : h ≠ "") (hkey : getKey h q = some key)
    (hget : w.getActionResult s (prepareACProtos key).action.digest = (.ok ar, s'))
    (hnb : ∀ f ∈ ar.outputFiles, f.path ≠ blobFileName) :
    clientFindFile w s key = (.error (.fault "cache blob not found amount output files"), s') ∧
    handle { token := "" } (realClient w)
        { method := "HEAD", path := ["v8", "artifacts", h], query := q, headers := hdrs,
          body := body } s st =
      (httpError "Error looking up file" 500, s', logError st) := by
  have hloc := locateArtifact_noBlob w s s' key ar hget hnb
  have hff : clientFindFile w s key =
      (.error (.fault "cache blob not found amount output files"), s') := by
    simp [clientFindFile, hloc, statusFromError]
  refine ⟨hff, ?_⟩
  simp only [handle, matchRoute_head h hh]
  rw [if_neg (by simp)]
  simp [artifactExistsHandler, hkey, realClient, hff, httpError]

/-- C10 witness: the property evaluated against `noBlobWorld`. -/
theorem findFile_missing_blob_witness :
    clientFindFile noBlobWorld () "key1" =
      (.error (.fault "cache blob not found amount output files"), ()) ∧
    handle { token := "" } (realClient noBlobWorld)
        { method := "HEAD", path := ["v8", "artifacts", "key1"], query := ⟨none, none⟩,
          headers := [], body := [] } () Stats.zero =
      (httpError "Error looking up file" 500, (), logError Stats.zero) :=
  findFile_missing_blob noBlobWorld () () Stats.zero { outputFiles := [], auxiliaryMetadata := [] }
    "key1" "key1" ⟨none, none⟩ [] [] (by decide) rfl rfl (by simp)

/-- C3 counterexample: with a remote whose `GetActionResult` succeeds but
returns no `cache_blob` output file, the download endpoint answers 500 —
not 404 as the claim states. -/
theorem download_missing_blob_counterexample :
    (handle { token := "" } (realClient noBlobWorld)
        { method := "GET", path := ["v8", "artifacts", "key1"], query := ⟨none, none⟩,
          headers := [], body := [] } () Stats.zero).1.status = 500 ∧
    (handle { token := "" } (realClient noBlobWorld)
        { method := "GET", path := ["v8", "artifacts", "key1"], query := ⟨none, none⟩,
          headers := [], body := [] } () Stats.zero).1.status ≠ 404 := by
  exact ⟨rfl, by decide⟩

/-- C3 amended: when `GetActionResult` succeeds but the action result has
no `cache_blob` output file, the client fails with the distinct
`"cache blob not found amount output files"` fault error, which carries
no gRPC status (so it is distinguishable from a remote NotFound), and at
the HTTP edge this maps to 500 "unable to download" with the errors
counter incremented (unlike a remote NotFound, which maps to 404 and
increments `downloads_not_found`). -/
theorem download_missing_blob (w : RpcWorld σ) (s s' : σ) (st : Stats) (ar : ActionResult)
    (key h : String) (q : Query) (hdrs : Headers) (body : List Nat)
    (hh : h ≠ "") (hst : h ≠ "status") (hkey : getKey h q = some key)
    (hget : w.getActionResult s (prepareACProtos key).action.digest = (.ok ar, s'))
    (hnb : ∀ f ∈ ar.outputFiles, f.path ≠ blobFileName) :
    clientDownloadFile w s key =
      (.error (.fault "cache blob not found amount output files"), s') ∧
    statusFromError (.fault "cache blob not found amount output files") = none ∧
    handle { token := "" } (realClient w)
        { method := "GET", path := ["v8", "artifacts", h], query := q, headers := hdrs,
          body := body } s st =
      (httpError "unable to download" 500, s', logError st) := by
  have hloc := locateArtifact_noBlob w s s' key ar hget hnb
  have hdf : clientDownloadFile w s key =
      (.error (.fault "cache blob not found amount output files"), s') := by
    simp [clientDownloadFile, hloc]
  refine ⟨hdf, rfl, ?_⟩
  simp only [handle, matchRoute_get h hh hst]
  rw [if_neg (by simp)]
  simp [downloadArtifactHandler, hkey, realClient, hdf, statusFromError, httpError]

/-- C3 witness (for the amended claim): evaluated against
`noBlobWorld`. -/
theorem download_missing_blob_witness :
    clientDownloadFile noBlobWorld () "key1" =
      (.error (.fault "cache blob not found amount output files"), ()) ∧
    statusFromError (.fault "cache blob not found amount output files") = none ∧
    handle { token := "" } (realClient noBlobWorld)
        { method := "GET", path := ["v8", "artifacts", "key1"], query := ⟨none, none⟩,
          headers := [], body := [] } () Stats.zero =
      (httpError "unable to download" 500, (), logError Stats.zero) :=
  download_missing_blob noBlobWorld () () Stats.zero
    { outputFiles := [], auxiliaryMetadata := [] } "key1" "key1" ⟨none, none⟩ [] []
    (by decide) (by decide) rfl rfl (by simp)

/-! ## C1: the upload/download round trip (corrected)

The round trip holds for every key — except that a download addressed by
the literal hash segment `"status"` never reaches the artifact handler:
the `/v8/artifacts/status` GET route is registered first and answers the
status JSON instead of the stored blob. -/

/-- The headers of a successful download of an artifact whose stored
metadata is `collectMetadata M`: exactly `Content-Type` plus the
allowlisted, non-empty-valued (byte-preserved) headers of `M`. -/
lemma roundtrip_headers (M : Headers) (name v : String) :
    (name, v) ∈ projectMetadata (headerSet [] "Content-Type" "application/octet-stream")
        (collectMetadata M) ↔
      ((name = "Content-Type" ∧ v = "application/octet-stream") ∨
       (name ∈ headersForMetadata ∧ headerGet M name = v ∧ v ≠ "")) := by
  by_cases hd : headerGet M "x-artifact-duration" = "" <;>
    by_cases ht : headerGet M "x-artifact-tag" = ""
  · have hcm : collectMetadata M = [] := by
      simp [collectMetadata, headersForMetadata, hd, ht]
    rw [hcm]
    show (name, v) ∈ [("Content-Type", "application/octet-stream")] ↔ _
    simp only [List.mem_singleton, Prod.mk.injEq, headersForMetadata, List.mem_cons,
      List.mem_singleton, List.not_mem_nil, or_false]
    constructor
    · exact fun h => Or.inl h
    · rintro (h | ⟨hmem, hget, hne⟩)
      · exact h
      · rcases hmem with rfl | rfl
        · exact absurd (hget.symm.trans hd) hne
        · exact absurd (hget.symm.trans ht) hne
  · have hcm : collectMetadata M =
        [("x-artifact-tag", MetaVal.str (headerGet M "x-artifact-tag"))] := by
      simp [collectMetadata, headersForMetadata, hd, ht]
    rw [hcm]
    show (name, v) ∈ [("Content-Type", "application/octet-stream"),
        ("x-artifact-tag", headerGet M "x-artifact-tag")] ↔ _
    simp only [List.mem_cons, List.mem_singleton, Prod.mk.injEq, headersForMetadata,
      List.not_mem_nil, or_false]
    constructor
    · rintro (h | h)
      · exact Or.inl h
      · obtain ⟨rfl, rfl⟩ := h
        exact Or.inr ⟨Or.inr rfl, rfl, ht⟩
    · rintro (h | ⟨hmem, hget, hne⟩)
      · exact Or.inl h
      · rcases hmem with rfl | rfl
        · exact absurd (hget.symm.trans hd) hne
        · exact Or.inr ⟨rfl, hget.symm⟩
  · have hcm : collectMetadata M =
        [("x-artifact-duration", MetaVal.str (headerGet M "x-artifact-duration"))] := by
      simp [collectMetadata, headersForMetadata, hd, ht]
    rw [hcm]
    show (name, v) ∈ [("Content-Type", "application/octet-stream"),
        ("x-artifact-duration", headerGet M "x-artifact-duration")] ↔ _
    simp only [List.mem_cons, List.mem_singleton, Prod.mk.injEq, headersForMetadata,
      List.not_mem_nil, or_false]
    constructor
    · rintro (h | h)
      · exact Or.inl h
      · obtain ⟨rfl, rfl⟩ := h
        exact Or.inr ⟨Or.inl rfl, rfl, hd⟩
    · rintro (h | ⟨hmem, hget, hne⟩)
      · exact Or.inl h
      · rcases hmem with rfl | rfl
        · exact Or.inr ⟨rfl, hget.symm⟩
        · exact absurd (hget.symm.trans ht) hne
  · have hcm : collectMetadata M =
        [("x-artifact-duration", MetaVal.str (headerGet M "x-artifact-duration")),
         ("x-artifact-tag", MetaVal.str (headerGet M "x-artifact-tag"))] := by
      simp [collectMetadata, headersForMetadata, hd, ht]
    rw [hcm]
    show (name, v) ∈ [("Content-Type", "application/octet-stream"),
        ("x-artifact-duration", headerGet M "x-artifact-duration"),
        ("x-artifact-tag", headerGet M "x-artifact-tag")] ↔ _
    simp only [List.mem_cons, List.mem_singleton, Prod.mk.injEq, headersForMetadata,
      List.not_mem_nil, or_false]
    constructor
    · rintro (h | h | h)
      · exact Or.inl h
      · obtain ⟨rfl, rfl⟩ := h
        exact Or.inr ⟨Or.inl rfl, rfl, hd⟩
      · obtain ⟨rfl, rfl⟩ := h
        exact Or.inr ⟨Or.inr rfl, rfl, ht⟩
    · rintro (h | ⟨hmem, hget, hne⟩)
      · exact Or.inl h
      · rcases hmem with rfl | rfl
        · exact Or.inr (Or.inl ⟨rfl, hget.symm⟩)
        · exact Or.inr (Or.inr ⟨rfl, hget.symm⟩)

/-- C1 counterexample: a PUT of `[1, 2, 3]` to `/v8/artifacts/status`
succeeds (202) and stores the blob under canonical key `"status"`, but a
download of that same canonical key — necessarily a GET of
`/v8/artifacts/status` — is answered by the status endpoint's JSON, not
the stored bytes. -/
theorem roundtrip_counterexample :
    (handle { token := "" } inMemoryClient (putReqOf "status" ⟨none, none⟩ [] [1, 2, 3])
        [] Stats.zero).1.status = 202 ∧
    getKey "status" ⟨none, none⟩ = some "status" ∧
    (handle { token := "" } inMemoryClient (getReqOf "status" ⟨none, none⟩ [])
        (handle { token := "" } inMemoryClient (putReqOf "status" ⟨none, none⟩ [] [1, 2, 3])
          [] Stats.zero).2.1
        (handle { token := "" } inMemoryClient (putReqOf "status" ⟨none, none⟩ [] [1, 2, 3])
          [] Stats.zero).2.2).1.body ≠ Body.bin [1, 2, 3] := by
  exact ⟨rfl, rfl, by decide⟩

/-- C1 amended: for every blob `B` and request headers `M`, after a
successful PUT of `B` with headers `M` under a non-empty hash, a download
addressed to the same canonical key — by any hash segment other than the
literal `"status"`, which the status route shadows — returns 202 on the
PUT, and the GET answers 200 with exactly the bytes `B` and with exactly
the `Content-Type` header plus the allowlisted, non-empty-valued,
byte-preserved metadata headers of `M`; every other header is absent. -/
theorem roundtrip_amended (B : List Nat) (M M2 : Headers) (h h2 : String) (q q2 : Query)
    (s : Store) (st : Stats)
    (hh : h ≠ "") (hh2 : h2 ≠ "") (hst2 : h2 ≠ "status")
    (hkey : getKey h2 q2 = getKey h q) :
    (handle { token := "" } inMemoryClient (putReqOf h q M B) s st).1.status = 202 ∧
    (handle { token := "" } inMemoryClient (getReqOf h2 q2 M2)
        (handle { token := "" } inMemoryClient (putReqOf h q M B) s st).2.1
        (handle { token := "" } inMemoryClient (putReqOf h q M B) s st).2.2).1.status = 200 ∧
    (handle { token := "" } inMemoryClient (getReqOf h2 q2 M2)
        (handle { token := "" } inMemoryClient (putReqOf h q M B) s st).2.1
        (handle { token := "" } inMemoryClient (putReqOf h q M B) s st).2.2).1.body =
      Body.bin B ∧
    (∀ name v,
      (name, v) ∈ (handle { token := "" } inMemoryClient (getReqOf h2 q2 M2)
          (handle { token := "" } inMemoryClient (putReqOf h q M B) s st).2.1
          (handle { token := "" } inMemoryClient (putReqOf h q M B) s st).2.2).1.headers ↔
        ((name = "Content-Type" ∧ v = "application/octet-stream") ∨
         (name ∈ headersForMetadata ∧ headerGet M name = v ∧ v ≠ ""))) := by
  obtain ⟨K, hK⟩ : ∃ K, getKey h q = some K := by
    unfold getKey
    rw [if_neg hh]
    exact ⟨_, rfl⟩
  have hkey2 : getKey h2 q2 = some K := hkey.trans hK
  have hput : handle { token := "" } inMemoryClient (putReqOf h q M B) s st =
      ({ status := 202, headers := [], body := .text "\x7b\"urls\":[]\x7d\n" },
       (K, { data := B, metadata := collectMetadata M }) :: s,
       { st with uploadCount := st.uploadCount + 1,
                 uploadedBytes := st.uploadedBytes + (B.length : Int) }) := by
    simp only [handle, putReqOf, matchRoute_put h hh]
    rw [if_neg (by simp)]
    simp [uploadArtifactHandler, hK, inMemoryClient]
  have hfind : storeFind ((K, { data := B, metadata := collectMetadata M }) :: s) K =
      some { data := B, metadata := collectMetadata M } := by
    simp [storeFind]
  have hget : ∀ st1 : Stats, handle { token := "" } inMemoryClient (getReqOf h2 q2 M2)
      ((K, { data := B, metadata := collectMetadata M }) :: s) st1 =
      ({ status := 200,
         headers := projectMetadata (headerSet [] "Content-Type" "application/octet-stream")
           (collectMetadata M),
         body := .bin B },
       (K, { data := B, metadata := collectMetadata M }) :: s,
       { st1 with downloadCount := st1.downloadCount + 1,
                  downloadedBytes := st1.downloadedBytes + (B.length : Int) }) := by
    intro st1
    simp only [handle, getReqOf, matchRoute_get h2 hh2 hst2]
    rw [if_neg (by simp)]
    simp [downloadArtifactHandler, hkey2, inMemoryClient, hfind]
  refine ⟨by rw [hput], ?_, ?_, ?_⟩
  · simp only [hput]
    rw [hget]
  · simp only [hput]
    rw [hget]
  · intro name v
    simp only [hput]
    rw [hget]
    exact roundtrip_headers M name v

/-- C1 witness: a concrete round trip — body `[1, 2, 3]`, one allowlisted
header with value `"42"`, one non-allowlisted header — through the
in-memory client. -/
theorem roundtrip_amended_witness :
    (handle { token := "" } inMemoryClient
        (putReqOf "key1" ⟨none, none⟩
          [("X-Artifact-Duration", "42"), ("X-Artifact-Client-Ci", "TEST")] [1, 2, 3])
        [] Stats.zero).1.status = 202 ∧
    (handle { token := "" } inMemoryClient (getReqOf "key1" ⟨none, none⟩ [])
        (handle { token := "" } inMemoryClient
          (putReqOf "key1" ⟨none, none⟩
            [("X-Artifact-Duration", "42"), ("X-Artifact-Client-Ci", "TEST")] [1, 2, 3])
          [] Stats.zero).2.1
        (handle { token := "" } inMemoryClient
          (putReqOf "key1" ⟨none, none⟩
            [("X-Artifact-Duration", "42"), ("X-Artifact-Client-Ci", "TEST")] [1, 2, 3])
          [] Stats.zero).2.2).1.status = 200 ∧
    (handle { token := "" } inMemoryClient (getReqOf "key1" ⟨none, none⟩ [])
        (handle { token := "" } inMemoryClient
          (putReqOf "key1" ⟨none, none⟩
            [("X-Artifact-Duration", "42"), ("X-Artifact-Client-Ci", "TEST")] [1, 2, 3])
          [] Stats.zero).2.1
        (handle { token := "" } inMemoryClient
          (putReqOf "key1" ⟨none, none⟩
            [("X-Artifact-Duration", "42"), ("X-Artifact-Client-Ci", "TEST")] [1, 2, 3])
          [] Stats.zero).2.2).1.body = Body.bin [1, 2, 3] ∧
    (∀ name v,
      (name, v) ∈ (handle { token := "" } inMemoryClient (getReqOf "key1" ⟨none, none⟩ [])
          (handle { token := "" } inMemoryClient
            (putReqOf "key1" ⟨none, none⟩
              [("X-Artifact-Duration", "42"), ("X-Artifact-Client-Ci", "TEST")] [1, 2, 3])
            [] Stats.zero).2.1
          (handle { token := "" } inMemoryClient
            (putReqOf "key1" ⟨none, none⟩
              [("X-Artifact-Duration", "42"), ("X-Artifact-Client-Ci", "TEST")] [1, 2, 3])
            [] Stats.zero).2.2).1.headers ↔
        ((name = "Content-Type" ∧ v = "application/octet-stream") ∨
         (name ∈ headersForMetadata ∧
          headerGet [("X-Artifact-Duration", "42"), ("X-Artifact-Client-Ci", "TEST")] name = v ∧
          v ≠ ""))) :=
  roundtrip_amended [1, 2, 3] [("X-Artifact-Duration", "42"), ("X-Artifact-Client-Ci", "TEST")]
    [] "key1" "key1" ⟨none, none⟩ ⟨none, none⟩ [] Stats.zero
    (by decide) (by decide) (by decide) rfl

/-! ## C8: stats conservation -/

lemma noRouteResp_status (p : List String) :
    (noRouteResp p).status = 404 ∨ (noRouteResp p).status = 405 := by
  unfold noRouteResp
  split
  · split
    · exact Or.inr rfl
    · exact Or.inl rfl
  · exact Or.inl rfl

/-- Inversion of the routing table: what a matched route implies about
the method and the path. -/
lemma matchRoute_some_inv (m : String) (p : List String) (rt : Route)
    (hm : matchRoute m p = some rt) :
    ∃ seg, p = ["v8", "artifacts", seg] ∧ seg ≠ "" ∧
      ((rt = .events ∧ m = "POST") ∨
       (rt = .status ∧ seg = "status" ∧ m = "GET") ∨
       (rt = .upload seg ∧ m = "PUT") ∨
       (rt = .head seg ∧ m = "HEAD") ∨
       (rt = .download seg ∧ m = "GET" ∧ seg ≠ "status")) := by
  unfold matchRoute at hm
  split at hm
  · rename_i a b seg
    split at hm
    · rename_i hcond
      obtain ⟨ha, hb, hseg⟩ := hcond
      subst ha
      subst hb
      split at hm
      · rename_i h2
        cases hm
        exact ⟨seg, rfl, hseg, Or.inl ⟨rfl, h2.2⟩⟩
      · rename_i h2
        split at hm
        · rename_i h3
          cases hm
          exact ⟨seg, rfl, hseg, Or.inr (Or.inl ⟨rfl, h3.1, h3.2⟩)⟩
        · rename_i h3
          split at hm
          · rename_i h4
            cases hm
            exact ⟨seg, rfl, hseg, Or.inr (Or.inr (Or.inl ⟨rfl, h4⟩))⟩
          · rename_i h4
            split at hm
            · rename_i h5
              cases hm
              exact ⟨seg, rfl, hseg, Or.inr (Or.inr (Or.inr (Or.inl ⟨rfl, h5⟩)))⟩
            · rename_i h5
              split at hm
              · rename_i h6
                cases hm
                refine ⟨seg, rfl, hseg, Or.inr (Or.inr (Or.inr (Or.inr ⟨rfl, h6, ?_⟩)))⟩
                intro hst
                exact h3 ⟨hst, h6⟩
              · cases hm
    · cases hm
  · cases hm

/-- The per-request effect of `handle` on the five counters the claim
names: `uploads` counts exactly the 202-answered PUTs, `ul_bytes` adds
their request-body sizes, `downloads`/`dl_bytes` count successful
artifact GETs and their served sizes, and `errors` counts exactly the
5xx responses. -/
lemma handle_deltas (opts : Options) (cl : ClientIface σ) (r : Req) (s : σ) (st : Stats) :
    ((handle opts cl r s st).2.2).uploadCount =
        st.uploadCount + (if isSuccessfulPut (r, (handle opts cl r s st).1) then 1 else 0) ∧
    ((handle opts cl r s st).2.2).uploadedBytes =
        st.uploadedBytes + (if isSuccessfulPut (r, (handle opts cl r s st).1) then
          (r.body.length : Int) else 0) ∧
    ((handle opts cl r s st).2.2).downloadCount =
        st.downloadCount +
          (if isSuccessfulDownload (r, (handle opts cl r s st).1) then 1 else 0) ∧
    ((handle opts cl r s st).2.2).downloadedBytes =
        st.downloadedBytes + (if isSuccessfulDownload (r, (handle opts cl r s st).1) then
          respBinSize (handle opts cl r s st).1.body else 0) ∧
    ((handle opts cl r s st).2.2).errorsCount =
        st.errorsCount + (if is5xx (handle opts cl r s st).1 then 1 else 0) := by
  rcases hm : matchRoute r.method r.path with _ | rt
  · simp only [handle, hm]
    rcases noRouteResp_status r.path with hs | hs <;>
      simp [isSuccessfulPut, isSuccessfulDownload, is5xx, hs]
  · obtain ⟨seg, hpath, hseg, hcases⟩ := matchRoute_some_inv _ _ _ hm
    simp only [handle, hm]
    by_cases hgate : opts.token ≠ "" ∧
        headerGet r.headers "Authorization" ≠ "Bearer " ++ opts.token
    · rw [if_pos hgate]
      simp [isSuccessfulPut, isSuccessfulDownload, is5xx, httpError]
    · rw [if_neg hgate]
      rcases hcases with ⟨rfl, hmeth⟩ | ⟨rfl, hsegeq, hmeth⟩ | ⟨rfl, hmeth⟩ | ⟨rfl, hmeth⟩ |
        ⟨rfl, hmeth, hnst⟩
      · simp [isSuccessfulPut, isSuccessfulDownload, is5xx, hmeth]
      · simp [isSuccessfulPut, isSuccessfulDownload, is5xx, hmeth, hpath, hsegeq]
      · obtain ⟨K, hK⟩ : ∃ K, getKey seg r.query = some K := by
          unfold getKey
          rw [if_neg hseg]
          exact ⟨_, rfl⟩
        rcases hcl : cl.uploadFile s K r.body (collectMetadata r.headers) with ⟨res, s1⟩
        cases res with
        | error e =>
          simp [uploadArtifactHandler, hK, hcl, logError, httpError,
            isSuccessfulPut, isSuccessfulDownload, is5xx, hmeth]
        | ok u =>
          simp [uploadArtifactHandler, hK, hcl,
            isSuccessfulPut, isSuccessfulDownload, is5xx, hmeth]
      · obtain ⟨K, hK⟩ : ∃ K, getKey seg r.query = some K := by
          unfold getKey
          rw [if_neg hseg]
          exact ⟨_, rfl⟩
        rcases hcl : cl.findFile s K with ⟨res, s1⟩
        cases res with
        | error e =>
          simp [artifactExistsHandler, hK, hcl, logError, httpError,
            isSuccessfulPut, isSuccessfulDownload, is5xx, hmeth]
        | ok b =>
          cases b <;>
            simp [artifactExistsHandler, hK, hcl,
              isSuccessfulPut, isSuccessfulDownload, is5xx, hmeth]
      · obtain ⟨K, hK⟩ : ∃ K, getKey seg r.query = some K := by
          unfold getKey
          rw [if_neg hseg]
          exact ⟨_, rfl⟩
        have hb : ((["v8", "artifacts", seg] : List String) ==
            ["v8", "artifacts", "status"]) = false := by
          simp [hnst]
        rcases hcl : cl.downloadFile s K with ⟨res, s1⟩
        cases res with
        | error e =>
          rcases hsf : statusFromError e with _ | c
          · simp [downloadArtifactHandler, hK, hcl, hsf, logError, httpError,
              isSuccessfulPut, isSuccessfulDownload, is5xx, hmeth]
          · by_cases hc : c = notFoundCode
            · subst hc
              simp [downloadArtifactHandler, hK, hcl, hsf, httpError,
                isSuccessfulPut, isSuccessfulDownload, is5xx, hmeth]
            · simp [downloadArtifactHandler, hK, hcl, hsf, hc, logError, httpError,
                isSuccessfulPut, isSuccessfulDownload, is5xx, hmeth]
        | ok pr =>
          obtain ⟨bytes, md⟩ := pr
          simp [downloadArtifactHandler, hK, hcl, respBinSize,
            isSuccessfulPut, isSuccessfulDownload, is5xx, hmeth, hpath, hb]

/-- Folding `handle_deltas` over a request sequence. -/
lemma runTrace_stats (opts : Options) (cl : ClientIface σ) :
    ∀ (reqs : List Req) (s : σ) (st : Stats),
      ((runTrace opts cl reqs s st).2.2).uploadCount =
          st.uploadCount +
            (((runTrace opts cl reqs s st).1.filter isSuccessfulPut).length : Int) ∧
      ((runTrace opts cl reqs s st).2.2).uploadedBytes =
          st.uploadedBytes +
            (((runTrace opts cl reqs s st).1.filter isSuccessfulPut).map
              (fun p => (p.1.body.length : Int))).sum ∧
      ((runTrace opts cl reqs s st).2.2).downloadCount =
          st.downloadCount +
            (((runTrace opts cl reqs s st).1.filter isSuccessfulDownload).length : Int) ∧
      ((runTrace opts cl reqs s st).2.2).downloadedBytes =
          st.downloadedBytes +
            (((runTrace opts cl reqs s st).1.filter isSuccessfulDownload).map
              (fun p => respBinSize p.2.body)).sum ∧
      ((runTrace opts cl reqs s st).2.2).errorsCount =
          st.errorsCount +
            (((runTrace opts cl reqs s st).1.filter (fun p => is5xx p.2)).length : Int) := by
  intro reqs
  induction reqs with
  | nil => intro s st; simp [runTrace]
  | cons r rs ih =>
    intro s st
    obtain ⟨h1, h2, h3, h4, h5⟩ := handle_deltas opts cl r s st
    obtain ⟨g1, g2, g3, g4, g5⟩ := ih (handle opts cl r s st).2.1 (handle opts cl r s st).2.2
    simp only [runTrace, List.filter_cons]
    refine ⟨?_, ?_, ?_, ?_, ?_⟩
    · by_cases hp : isSuccessfulPut (r, (handle opts cl r s st).1) <;>
        simp [hp] at h1 ⊢ <;> omega
    · by_cases hp : isSuccessfulPut (r, (handle opts cl r s st).1) <;>
        simp [hp] at h2 ⊢ <;> omega
    · by_cases hp : isSuccessfulDownload (r, (handle opts cl r s st).1) <;>
        simp [hp] at h3 ⊢ <;> omega
    · by_cases hp : isSuccessfulDownload (r, (handle opts cl r s st).1) <;>
        simp [hp] at h4 ⊢ <;> omega
    · by_cases hp : is5xx (handle opts cl r s st).1 <;>
        simp [hp] at h5 ⊢ <;> omega

/-- C8.  After any sequence of requests handled by the server (starting
from zero stats), `uploads` equals the number of PUTs answered 202,
`ul_bytes` the sum of their request-body sizes, `downloads` the number of
successful artifact GETs, `dl_bytes` the sum of their served body sizes,
and `errors` the number of responses issued with a 5xx status. -/
theorem stats_conservation (opts : Options) (cl : ClientIface σ) (reqs : List Req) (s : σ) :
    ((runTrace opts cl reqs s Stats.zero).2.2).uploadCount =
        (((runTrace opts cl reqs s Stats.zero).1.filter isSuccessfulPut).length : Int) ∧
    ((runTrace opts cl reqs s Stats.zero).2.2).uploadedBytes =
        (((runTrace opts cl reqs s Stats.zero).1.filter isSuccessfulPut).map
          (fun p => (p.1.body.length : Int))).sum ∧
    ((runTrace opts cl reqs s Stats.zero).2.2).downloadCount =
        (((runTrace opts cl reqs s Stats.zero).1.filter isSuccessfulDownload).length : Int) ∧
    ((runTrace opts cl reqs s Stats.zero).2.2).downloadedBytes =
        (((runTrace opts cl reqs s Stats.zero).1.filter isSuccessfulDownload).map
          (fun p => respBinSize p.2.body)).sum ∧
    ((runTrace opts cl reqs s Stats.zero).2.2).errorsCount =
        (((runTrace opts cl reqs s Stats.zero).1.filter (fun p => is5xx p.2)).length : Int) := by
  have h := runTrace_stats opts cl reqs s Stats.zero
  simpa [Stats.zero] using h

end Tbc
